import Mathlib

/-!
Verification of the prasword encrypted credential store.

This file is a shallow embedding of the core of the repository:
`database_manager.py` (key derivation, the field cipher, the schema
manager, and the credential repository over folders and password
entries) and `settings_manager.py` (the settings vault).

Modelling conventions, stated once here:
* Text values (names, titles, SQL text) are Lean `String`s; blobs are
  `Option String`; timestamps, ids and entropy are `Nat`.
* PBKDF2-HMAC-SHA256 is a deterministic, collision-free derivation; it
  is modelled by the injective pairing `derive_key salt password`.
* A Fernet ciphertext is authenticated encryption with a fresh random
  nonce per call.  It is modelled symbolically: a token records the key
  it was produced under, the nonce drawn for the call, and the payload;
  decryption under any other key fails, exactly as HMAC verification
  fails for a mismatched key.  The urlsafe-base64 text encoding of a
  token is a bijection and is left implicit; a stored ciphertext string
  is the inductive `CipherText` (the empty string, a valid encoded
  token, or any other, corrupt, string).
* `os.urandom` and `datetime.now()` are nondeterministic inputs; each
  modelled operation takes them as explicit `Nat` arguments.
* SQLite tables are lists of rows; a table that does not exist is
  `none`.  `AUTOINCREMENT` is a per-table sequence counter that inserts
  bump.  Statements that would raise (a query against a missing table)
  make the surrounding method return its failure value with the store
  unchanged, matching the `except` blocks that swallow the exception;
  transaction rollback is not modelled because every claim concerns
  databases whose tables exist.
-/

namespace Prasword

/-- Bytes of a string, as the list of its character codes; this is the
byte order SQLite uses when comparing TEXT values in the ASCII range. -/
def strBytes (s : String) : List Nat := s.toList.map Char.toNat

/-- A Fernet token: the symmetric key it was produced under, the random
nonce (IV) drawn for the call, and the plaintext payload.  Authenticated
encryption is modelled as perfectly binding: decryption succeeds exactly
under the producing key. -/
structure FernetToken where
  key : Nat
  nonce : Nat
  payload : String
deriving DecidableEq, Repr

/-- A stored ciphertext string.  `empty` is the empty string (produced by
the empty-input short-circuit of the field cipher); `token` is the
urlsafe-base64 text of a Fernet token; `corrupt` is any other string,
which fails base64 or token decoding. -/
inductive CipherText where
  | empty : CipherText
  | token : FernetToken → CipherText
  | corrupt : Nat → CipherText
deriving DecidableEq, Repr

/-- The stored text of a ciphertext as a byte-comparison key, the order
SQLite's ORDER BY sees.  A serialized Fernet token places the random IV
before the encrypted body, so the stored text of two tokens compares by
nonce before anything derived from the plaintext; the empty string is
the least key. -/
def CipherText.storedKey : CipherText → List Nat
  | .empty => []
  | .token t => 1 :: t.nonce :: strBytes t.payload
  | .corrupt j => [1, j]

namespace DatabaseManager

/-- DatabaseManager._derive_key: PBKDF2-HMAC-SHA256 over the master
password with the session salt, 100000 iterations, urlsafe-base64
encoded; modelled as the injective pairing of salt and password. -/
def derive_key (salt master_password : Nat) : Nat := Nat.pair salt master_password

/-- DatabaseManager.encrypt_data: the empty string short-circuits to the
empty string; otherwise the Fernet token for the session key, the nonce
drawn for this call, and the data, base64-encoded for storage. -/
def encrypt_data (key nonce : Nat) (data : String) : CipherText :=
  if data = "" then CipherText.empty
  else CipherText.token ⟨key, nonce, data⟩

/-- DatabaseManager.decrypt_data: the empty string short-circuits to the
empty string; a valid token decrypts to its payload under the producing
key; any failure (wrong key, corrupt input) is caught and yields the
empty string. -/
def decrypt_data (key : Nat) (encrypted_data : CipherText) : String :=
  match encrypted_data with
  | .empty => ""
  | .token t => if t.key = key then t.payload else ""
  | .corrupt _ => ""

end DatabaseManager

/-- A row of the folders table. -/
structure Folder where
  id : Nat
  name : String
  icon : Option String
  color : String
  created_at : Nat
  updated_at : Nat
deriving DecidableEq, Repr

/-- A row of the passwords table; the five text fields are stored
encrypted. -/
structure PasswordRow where
  id : Nat
  folder_id : Nat
  title_encrypted : CipherText
  username_encrypted : CipherText
  password_encrypted : CipherText
  url_encrypted : CipherText
  notes_encrypted : CipherText
  created_at : Nat
  updated_at : Nat
deriving DecidableEq, Repr

/-- The persisted state of one password database: the three tables
(`none` when a table does not exist) and the AUTOINCREMENT sequence of
the folders and passwords tables. -/
structure Database where
  metadata : Option (List (String × Nat))
  folders : Option (List Folder)
  passwords : Option (List PasswordRow)
  folderSeq : Nat
  passwordSeq : Nat
deriving DecidableEq, Repr

/-- A database file that does not exist yet: connecting creates it with
no tables. -/
def emptyDatabase : Database := ⟨none, none, none, 0, 0⟩

/-- The in-memory session of a DatabaseManager after opening a store:
the connected flag, the cipher key, and the salt it was derived with. -/
structure Session where
  is_connected : Bool
  key : Nat
  salt : Nat
deriving DecidableEq, Repr

/-- SELECT value FROM _metadata WHERE key = k. -/
def metaLookup (rows : List (String × Nat)) (k : String) : Option Nat :=
  (rows.find? (fun r => r.1 == k)).map (fun r => r.2)

/-- INSERT OR REPLACE INTO _metadata (key, value): replaces the row with
this key if present, else appends it. -/
def metaInsertOrReplace (rows : List (String × Nat)) (k : String) (v : Nat) :
    List (String × Nat) :=
  if rows.any (fun r => r.1 == k) then
    rows.map (fun r => if r.1 == k then (k, v) else r)
  else rows ++ [(k, v)]

/-- The salt stored in the _metadata table of a database, if any. -/
def saltOf (db : Database) : Option Nat :=
  metaLookup (db.metadata.getD []) "salt"

namespace DatabaseManager

/-- DatabaseManager._check_existing_data: true iff the passwords table
exists and SELECT COUNT(*) FROM passwords is positive.  (The SQLite and
PostgreSQL branches perform the same check through different catalogs.) -/
def check_existing_data (db : Database) : Bool :=
  match db.passwords with
  | some rows => !rows.isEmpty
  | none => false

/-- The default folder row inserted by table creation:
INSERT INTO folders (id, name, color) VALUES (1, 'General', '#3498db'),
with both timestamps defaulted to the current time. -/
def defaultFolder (now : Nat) : Folder :=
  ⟨1, "General", none, "#3498db", now, now⟩

/-- DatabaseManager._create_tables: if the passwords table already holds
data, skip everything; otherwise CREATE TABLE IF NOT EXISTS for the
_metadata, folders and passwords tables, then insert the default folder
(id 1, 'General') only if no folder row with id 1 exists.  Inserting
with the explicit id 1 raises the folders sequence to at least 1. -/
def create_tables (now : Nat) (db : Database) : Database :=
  if check_existing_data db then db
  else if (db.folders.getD []).countP (fun f => f.id == 1) = 0 then
    ⟨some (db.metadata.getD []), some (db.folders.getD [] ++ [defaultFolder now]),
      some (db.passwords.getD []), max db.folderSeq 1, db.passwordSeq⟩
  else
    ⟨some (db.metadata.getD []), some (db.folders.getD []),
      some (db.passwords.getD []), db.folderSeq, db.passwordSeq⟩

/-- DatabaseManager.create_sqlite_database: generates a fresh salt
(`newSalt`, the os.urandom draw), derives the cipher key, opens the file
(creating it when `db0 = emptyDatabase`), creates the _metadata table if
missing, stores the salt with INSERT OR REPLACE, then runs
_create_tables; the session comes up connected. -/
def create_sqlite_database (db0 : Database) (newSalt master_password now : Nat) :
    Session × Database :=
  let key := derive_key newSalt master_password
  let md := metaInsertOrReplace (db0.metadata.getD []) "salt" newSalt
  let db1 : Database := { db0 with metadata := some md }
  let db2 := create_tables now db1
  (⟨true, key, newSalt⟩, db2)

/-- DatabaseManager.connect_sqlite_database: reads the salt from the
_metadata table, derives the cipher key from it and the supplied master
password, and checks the folders table is readable; any failure (missing
table, missing salt row) returns failure with the store untouched.  The
call performs no writes. -/
def connect_sqlite_database (db : Database) (master_password : Nat) :
    Option Session × Database :=
  match db.metadata with
  | none => (none, db)
  | some md =>
    match metaLookup md "salt" with
    | none => (none, db)
    | some salt =>
      match db.folders with
      | none => (none, db)
      | some _ => (some ⟨true, derive_key salt master_password, salt⟩, db)

/-- DatabaseManager.create_folder: INSERT INTO folders (name, icon,
color); the id is the next AUTOINCREMENT value and both timestamps
default to the current time.  Returns the new id, or -1 when not
connected or on a backend error (missing table). -/
def create_folder (connected : Bool) (db : Database) (name : String)
    (icon_data : Option String) (color : String) (now : Nat) : Int × Database :=
  if !connected then (-1, db)
  else
    match db.folders with
    | none => (-1, db)
    | some fs =>
      let fid := db.folderSeq + 1
      (Int.ofNat fid,
        { db with folders := some (fs ++ [⟨fid, name, icon_data, color, now, now⟩]),
                  folderSeq := fid })

/-- One SET item of the UPDATE statement built by update_folder. -/
inductive FolderField where
  | name (v : String)
  | icon (v : String)
  | color (v : String)
  | updatedAt (v : Nat)
deriving DecidableEq, Repr

/-- The update_fields list built by update_folder: one item per supplied
optional argument, and updated_at = now always appended. -/
def folderUpdateFields (name icon_data color : Option String) (now : Nat) :
    List FolderField :=
  (name.map (fun v => FolderField.name v)).toList ++
  (icon_data.map (fun v => FolderField.icon v)).toList ++
  (color.map (fun v => FolderField.color v)).toList ++
  [FolderField.updatedAt now]

/-- Apply one SET item to a folder row. -/
def applyFolderField (f : Folder) : FolderField → Folder
  | .name v => { f with name := v }
  | .icon v => { f with icon := some v }
  | .color v => { f with color := v }
  | .updatedAt v => { f with updated_at := v }

/-- DatabaseManager.update_folder: builds the update_fields list (only
supplied fields, plus updated_at), and if it is nonempty runs
UPDATE folders SET ... WHERE id = folder_id and returns success;
the empty-list branch returns failure. -/
def update_folder (connected : Bool) (db : Database) (folder_id : Nat)
    (name icon_data color : Option String) (now : Nat) : Bool × Database :=
  if !connected then (false, db)
  else
    match db.folders with
    | none => (false, db)
    | some fs =>
      let fields := folderUpdateFields name icon_data color now
      if fields.isEmpty then (false, db)
      else
        (true, { db with folders := some (fs.map (fun f =>
          if f.id == folder_id then fields.foldl applyFolderField f else f)) })

/-- DatabaseManager.delete_folder: refuses (returns failure, store
untouched) when not connected or when the folder is the default folder
id 1; otherwise UPDATE passwords SET folder_id = move_to_folder_id
WHERE folder_id = folder_id, then DELETE FROM folders WHERE id =
folder_id, and returns success. -/
def delete_folder (connected : Bool) (db : Database) (folder_id : Nat)
    (move_to_folder_id : Nat) : Bool × Database :=
  if !connected || folder_id == 1 then (false, db)
  else
    match db.passwords, db.folders with
    | some ps, some fs =>
      let ps2 := ps.map (fun p =>
        if p.folder_id == folder_id then { p with folder_id := move_to_folder_id } else p)
      let fs2 := fs.filter (fun f => !(f.id == folder_id))
      (true, { db with passwords := some ps2, folders := some fs2 })
    | _, _ => (false, db)

/-- DatabaseManager.add_password: INSERT INTO passwords of the five
fields, each encrypted independently with the session cipher (one fresh
nonce per call to encrypt_data); the id is the next AUTOINCREMENT value. -/
def add_password (connected : Bool) (key : Nat) (db : Database)
    (title username password : String) (folder_id : Nat) (url notes : String)
    (n1 n2 n3 n4 n5 now : Nat) : Bool × Database :=
  if !connected then (false, db)
  else
    match db.passwords with
    | none => (false, db)
    | some ps =>
      let pid := db.passwordSeq + 1
      let row : PasswordRow :=
        { id := pid, folder_id := folder_id,
          title_encrypted := encrypt_data key n1 title,
          username_encrypted := encrypt_data key n2 username,
          password_encrypted := encrypt_data key n3 password,
          url_encrypted := encrypt_data key n4 url,
          notes_encrypted := encrypt_data key n5 notes,
          created_at := now, updated_at := now }
      (true, { db with passwords := some (ps ++ [row]), passwordSeq := pid })

/-- One SET item of the UPDATE statement built by update_password. -/
inductive PasswordField where
  | title (v : CipherText)
  | username (v : CipherText)
  | password (v : CipherText)
  | url (v : CipherText)
  | notes (v : CipherText)
  | folder (v : Nat)
  | updatedAt (v : Nat)
deriving DecidableEq, Repr

/-- The update_fields list built by update_password: each supplied text
field is encrypted as it is appended; updated_at = now always appended. -/
def passwordUpdateFields (key : Nat) (title username password url notes : Option String)
    (folder_id : Option Nat) (n1 n2 n3 n4 n5 now : Nat) : List PasswordField :=
  (title.map (fun v => PasswordField.title (encrypt_data key n1 v))).toList ++
  (username.map (fun v => PasswordField.username (encrypt_data key n2 v))).toList ++
  (password.map (fun v => PasswordField.password (encrypt_data key n3 v))).toList ++
  (url.map (fun v => PasswordField.url (encrypt_data key n4 v))).toList ++
  (notes.map (fun v => PasswordField.notes (encrypt_data key n5 v))).toList ++
  (folder_id.map (fun v => PasswordField.folder v)).toList ++
  [PasswordField.updatedAt now]

/-- Apply one SET item to a password row. -/
def applyPasswordField (p : PasswordRow) : PasswordField → PasswordRow
  | .title v => { p with title_encrypted := v }
  | .username v => { p with username_encrypted := v }
  | .password v => { p with password_encrypted := v }
  | .url v => { p with url_encrypted := v }
  | .notes v => { p with notes_encrypted := v }
  | .folder v => { p with folder_id := v }
  | .updatedAt v => { p with updated_at := v }

/-- DatabaseManager.update_password: same partial-update discipline as
update_folder, over the passwords table. -/
def update_password (connected : Bool) (key : Nat) (db : Database) (entry_id : Nat)
    (title username password url notes : Option String) (folder_id : Option Nat)
    (n1 n2 n3 n4 n5 now : Nat) : Bool × Database :=
  if !connected then (false, db)
  else
    match db.passwords with
    | none => (false, db)
    | some ps =>
      let fields := passwordUpdateFields key title username password url notes
        folder_id n1 n2 n3 n4 n5 now
      if fields.isEmpty then (false, db)
      else
        (true, { db with passwords := some (ps.map (fun p =>
          if p.id == entry_id then fields.foldl applyPasswordField p else p)) })

/-- DatabaseManager.delete_password: DELETE FROM passwords WHERE id =
entry_id. -/
def delete_password (connected : Bool) (db : Database) (entry_id : Nat) :
    Bool × Database :=
  if !connected then (false, db)
  else
    match db.passwords with
    | none => (false, db)
    | some ps =>
      (true, { db with passwords := some (ps.filter (fun p => !(p.id == entry_id))) })

end DatabaseManager

/-- One mutating call of a connected repository session, with every
nondeterministic input (timestamps, nonces) recorded as data.
ensureSchema is _create_tables, which also runs on the connect-to-
existing path. -/
inductive Op where
  | createFolder (name : String) (icon_data : Option String) (color : String) (now : Nat)
  | updateFolder (folder_id : Nat) (name icon_data color : Option String) (now : Nat)
  | deleteFolder (folder_id move_to : Nat)
  | addPassword (title username password : String) (folder_id : Nat) (url notes : String)
      (n1 n2 n3 n4 n5 now : Nat)
  | updatePassword (entry_id : Nat) (title username password url notes : Option String)
      (folder_id : Option Nat) (n1 n2 n3 n4 n5 now : Nat)
  | deletePassword (entry_id : Nat)
  | ensureSchema (now : Nat)
deriving DecidableEq, Repr

/-- The store after one repository call of a connected session whose
cipher key is `key`. -/
def applyOp (key : Nat) (db : Database) : Op → Database
  | .createFolder n i c now => (DatabaseManager.create_folder true db n i c now).2
  | .updateFolder fid n i c now => (DatabaseManager.update_folder true db fid n i c now).2
  | .deleteFolder fid mv => (DatabaseManager.delete_folder true db fid mv).2
  | .addPassword t u p fid url no n1 n2 n3 n4 n5 now =>
      (DatabaseManager.add_password true key db t u p fid url no n1 n2 n3 n4 n5 now).2
  | .updatePassword e t u p url no fid n1 n2 n3 n4 n5 now =>
      (DatabaseManager.update_password true key db e t u p url no fid n1 n2 n3 n4 n5 now).2
  | .deletePassword e => (DatabaseManager.delete_password true db e).2
  | .ensureSchema now => DatabaseManager.create_tables now db

/-- The store after a sequence of repository calls. -/
def applyOps (key : Nat) (db : Database) (ops : List Op) : Database :=
  ops.foldl (applyOp key) db

/-- A folder row with id 1 is present in the store. -/
def folder1Present (db : Database) : Bool :=
  (db.folders.getD []).any (fun f => f.id == 1)

/-- Lexicographic byte comparison, the order SQLite's ORDER BY applies
to TEXT values (memcmp of the stored bytes). -/
def natListLe : List Nat → List Nat → Bool
  | [], _ => true
  | _ :: _, [] => false
  | a :: as, b :: bs =>
    if a < b then true
    else if b < a then false
    else natListLe as bs

/-- Two-column comparison: first column decides, ties fall to the second
column, as in ORDER BY col1, col2. -/
def pairLe (x y : List Nat × List Nat) : Bool :=
  if natListLe x.1 y.1 then
    if natListLe y.1 x.1 then natListLe x.2 y.2 else true
  else false

/-- Insert into a sorted list, keeping earlier elements first on ties
(a stable model of the engine's sort). -/
def insertBy (le : α → α → Bool) (a : α) : List α → List α
  | [] => [a]
  | b :: bs => if le a b then a :: b :: bs else b :: insertBy le a bs

/-- Insertion sort by a boolean comparison; models ORDER BY. -/
def sortBy (le : α → α → Bool) : List α → List α
  | [] => []
  | a :: as => insertBy le a (sortBy le as)

/-- The name of the folder a password row belongs to, as produced by
LEFT JOIN folders f ON p.folder_id = f.id: none when the folder row is
missing (SQL NULL). -/
def folderNameOf (fs : List Folder) (fid : Nat) : Option String :=
  (fs.find? (fun f => f.id == fid)).map (fun f => f.name)

/-- Comparison key of the joined folder name under ORDER BY f.name:
SQL NULL sorts before every TEXT value. -/
def folderNameKey : Option String → List Nat
  | none => []
  | some s => 0 :: strBytes s

/-- ORDER BY f.name, p.title_encrypted (the unfiltered listing). -/
def rowLeUnfiltered (fs : List Folder) (p q : PasswordRow) : Bool :=
  pairLe (folderNameKey (folderNameOf fs p.folder_id), p.title_encrypted.storedKey)
    (folderNameKey (folderNameOf fs q.folder_id), q.title_encrypted.storedKey)

/-- ORDER BY p.title_encrypted (the folder-filtered listing). -/
def rowLeFiltered (p q : PasswordRow) : Bool :=
  natListLe p.title_encrypted.storedKey q.title_encrypted.storedKey

/-- A decrypted listing row as returned by get_passwords: the encrypted
columns are replaced by their decryptions, and the joined folder name is
carried along. -/
structure PasswordEntry where
  id : Nat
  folder_id : Nat
  title : String
  username : String
  password : String
  url : String
  notes : String
  created_at : Nat
  updated_at : Nat
  folder_name : Option String
deriving DecidableEq, Repr

/-- Decrypt one selected row with the session cipher (decryption failure
of a field leaves that field as the empty string). -/
def decryptRow (key : Nat) (fs : List Folder) (p : PasswordRow) : PasswordEntry :=
  { id := p.id
    folder_id := p.folder_id
    title := DatabaseManager.decrypt_data key p.title_encrypted
    username := DatabaseManager.decrypt_data key p.username_encrypted
    password := DatabaseManager.decrypt_data key p.password_encrypted
    url := DatabaseManager.decrypt_data key p.url_encrypted
    notes := DatabaseManager.decrypt_data key p.notes_encrypted
    created_at := p.created_at
    updated_at := p.updated_at
    folder_name := folderNameOf fs p.folder_id }

/-- Python truthiness of the optional folder_id argument of
get_passwords: None and 0 both select the unfiltered branch. -/
def folderArgTruthy : Option Nat → Bool
  | none => false
  | some n => !(n == 0)

namespace DatabaseManager

/-- DatabaseManager.get_passwords: joined with folder names, filtered by
folder when a truthy folder_id is supplied, ordered by the stored
title ciphertext text (and first by folder name when unfiltered), then
decrypted row by row.  Any failure (not connected, missing table)
returns the empty list. -/
def get_passwords (connected : Bool) (key : Nat) (db : Database)
    (folder_id : Option Nat) : List PasswordEntry :=
  if !connected then []
  else
    match db.passwords, db.folders with
    | some ps, some fs =>
      if folderArgTruthy folder_id then
        let fid := folder_id.getD 0
        (sortBy rowLeFiltered (ps.filter (fun p => p.folder_id == fid))).map
          (decryptRow key fs)
      else
        (sortBy (rowLeUnfiltered fs) ps).map (decryptRow key fs)
    | _, _ => []

end DatabaseManager

/-- The backend kind held in DatabaseManager.db_type. -/
inductive DbType where
  | sqlite
  | postgresql
deriving DecidableEq, Repr

/-- What reaches a backend cursor: the query text and the positional
parameters, exactly as handed to cursor.execute. -/
structure Dispatched where
  query : String
  params : List String
deriving DecidableEq, Repr

namespace DatabaseManager

/-- DatabaseManager._execute_sqlite: hands query and parameters to the
SQLite cursor unchanged. -/
def _execute_sqlite (query : String) (params : List String) : Dispatched :=
  ⟨query, params⟩

/-- DatabaseManager._execute_postgresql: hands query and parameters to
the psycopg2 cursor unchanged. -/
def _execute_postgresql (query : String) (params : List String) : Dispatched :=
  ⟨query, params⟩

/-- DatabaseManager.execute: raises when not connected, otherwise
dispatches to the branch for the session's backend kind. -/
def execute (connected : Bool) (ty : DbType) (query : String) (params : List String) :
    Except String Dispatched :=
  if !connected then Except.error "Database not connected"
  else
    match ty with
    | .sqlite => Except.ok (_execute_sqlite query params)
    | .postgresql => Except.ok (_execute_postgresql query params)

end DatabaseManager

/-- Modelled from the spec (for comparison with
DatabaseManager.execute, which is the code's authority): the spec's
Store Backend Adapter contract says execute accepts backend-agnostic
query templates with positional markers and rewrites the placeholders to
the target engine's syntax before dispatch; taking the agnostic marker
to be the file engine's own marker, every occurrence of the character
that introduces a file-engine placeholder is rewritten to the networked
engine's %s form. -/
def specRewritePlaceholders (ty : DbType) (query : String) : String :=
  match ty with
  | .sqlite => query
  | .postgresql =>
    String.join (query.toList.map (fun c =>
      if c == '?' then "%s" else String.singleton c))

namespace SettingsManager

/-- SettingsManager.salt: the fixed, hardcoded KDF salt shared by every
installation of the settings vault. -/
def settings_salt : Nat := 123456789012

/-- SettingsManager._encrypt_data: derives the key from the vault
password and the fixed salt, then Fernet-encrypts; there is no
empty-string short-circuit here. -/
def _encrypt_data (master_password nonce : Nat) (data : String) : CipherText :=
  CipherText.token ⟨DatabaseManager.derive_key settings_salt master_password, nonce, data⟩

/-- SettingsManager._decrypt_data: derives the key from the vault
password and the fixed salt and decrypts; any failure is caught and
returned as None. -/
def _decrypt_data (master_password : Nat) (encrypted_data : CipherText) : Option String :=
  match encrypted_data with
  | .token t =>
    if t.key = DatabaseManager.derive_key settings_salt master_password then some t.payload
    else none
  | _ => none

/-- A row of the settings vault's databases table: profile name and type
in clear, the JSON-serialized connection profile as ciphertext. -/
structure SettingsRow where
  name : String
  dbtype : String
  config_encrypted : CipherText
deriving DecidableEq, Repr

/-- SettingsManager.load_database_settings over the stored rows: every
row is decrypted in turn; a row whose ciphertext fails to decrypt (or
whose decryption fails JSON parsing) is skipped with a log line and the
loop continues; the configs of the remaining rows are returned (JSON
decoding is modelled as the identity on the stored text).  The None
result of the source arises only from a storage-level exception (the
settings file unreadable), which has no counterpart in this state
model. -/
def load_database_settings (rows : List SettingsRow) (master_password : Nat) :
    Option (List String) :=
  some (rows.filterMap (fun r => _decrypt_data master_password r.config_encrypted))

end SettingsManager

/-! Concrete stores used to instantiate the theorems below. -/

/-- The default folder of a store created at time 0. -/
def exFolder1 : Folder := ⟨1, "General", none, "#3498db", 0, 0⟩

/-- A user folder with id 2. -/
def exFolder2 : Folder := ⟨2, "Work", none, "#3498db", 0, 0⟩

/-- A password row in folder 2, encrypted under key 9. -/
def exRow1 : PasswordRow :=
  ⟨1, 2, CipherText.token ⟨9, 0, "Bank"⟩, CipherText.empty,
    CipherText.token ⟨9, 1, "hunter2"⟩, CipherText.empty, CipherText.empty, 0, 0⟩

/-- A store with the default folder, one user folder and one entry. -/
def exDb3 : Database :=
  ⟨some [("salt", 0)], some [exFolder1, exFolder2], some [exRow1], 2, 1⟩

/-- An entry in folder 1 whose title 'apple' was encrypted with nonce 7. -/
def exRowA : PasswordRow :=
  ⟨1, 1, CipherText.token ⟨9, 7, "apple"⟩, CipherText.empty,
    CipherText.token ⟨9, 8, "pw1"⟩, CipherText.empty, CipherText.empty, 0, 0⟩

/-- An entry in folder 1 whose title 'zebra' was encrypted with nonce 3:
its stored ciphertext text sorts before the one of 'apple'. -/
def exRowZ : PasswordRow :=
  ⟨2, 1, CipherText.token ⟨9, 3, "zebra"⟩, CipherText.empty,
    CipherText.token ⟨9, 9, "pw2"⟩, CipherText.empty, CipherText.empty, 0, 0⟩

/-- A store holding the two entries above in the default folder. -/
def exDb7 : Database :=
  ⟨some [("salt", 0)], some [exFolder1], some [exRowA, exRowZ], 1, 2⟩

/-- A database freshly created with salt 0 under master password 7. -/
def exDb8 : Database :=
  (DatabaseManager.create_sqlite_database emptyDatabase 0 7 0).2

/-- The session connect_sqlite_database produces on exDb8 with master
password 7. -/
def exSess8 : Session := ⟨true, DatabaseManager.derive_key 0 7, 0⟩

/-- A vault row encrypted under vault password 1. -/
def exVaultRow : SettingsManager.SettingsRow :=
  ⟨"work", "sqlite", SettingsManager._encrypt_data 1 0 "cfg-work"⟩

/-- A vault row encrypted under vault password 2. -/
def exVaultGood : SettingsManager.SettingsRow :=
  ⟨"home", "sqlite", SettingsManager._encrypt_data 2 0 "cfg-home"⟩

/-- A query template written with the file engine's placeholder. -/
def exQuery9 : String := "SELECT id FROM folders WHERE id = ?"

/-! Helper lemmas about the byte order and the sort model. -/

theorem natListLe_refl (a : List Nat) : natListLe a a = true := by
  induction a with
  | nil => rfl
  | cons x xs ih => simp [natListLe, ih]

theorem natListLe_total (a b : List Nat) :
    natListLe a b = true ∨ natListLe b a = true := by
  induction a generalizing b with
  | nil => exact Or.inl rfl
  | cons x xs ih =>
    cases b with
    | nil => exact Or.inr rfl
    | cons y ys =>
      by_cases h1 : x < y
      · exact Or.inl (by simp [natListLe, h1])
      · by_cases h2 : y < x
        · exact Or.inr (by simp [natListLe, h1, h2])
        · rcases ih ys with h | h
          · exact Or.inl (by simp [natListLe, h1, h2, h])
          · exact Or.inr (by simp [natListLe, h1, h2, h])

theorem natListLe_trans (a : List Nat) : ∀ b c : List Nat,
    natListLe a b = true → natListLe b c = true → natListLe a c = true := by
  induction a with
  | nil => intro b c _ _; rfl
  | cons x xs ih =>
    intro b c hab hbc
    cases b with
    | nil => simp [natListLe] at hab
    | cons y ys =>
      cases c with
      | nil => simp [natListLe] at hbc
      | cons z zs =>
        simp only [natListLe] at hab hbc ⊢
        by_cases hxy : x < y
        · by_cases hyz : y < z
          · simp [Nat.lt_trans hxy hyz]
          · by_cases hzy : z < y
            · simp [hyz, hzy] at hbc
            · have hyzeq : y = z := by omega
              subst hyzeq
              simp [hxy]
        · by_cases hyx : y < x
          · simp [hxy, hyx] at hab
          · have hxyeq : x = y := by omega
            subst hxyeq
            simp only [Nat.lt_irrefl, if_false] at hab hbc ⊢
            by_cases hxz : x < z
            · simp [hxz]
            · by_cases hzx : z < x
              · simp [hxz, hzx] at hbc
              · simp only [hxz, hzx, if_false] at hbc ⊢
                exact ih ys zs hab hbc

theorem pairLe_eq_true_iff (x y : List Nat × List Nat) :
    pairLe x y = true ↔
      (natListLe x.1 y.1 = true ∧
        (natListLe y.1 x.1 = true → natListLe x.2 y.2 = true)) := by
  unfold pairLe
  by_cases h1 : natListLe x.1 y.1 = true
  · by_cases h2 : natListLe y.1 x.1 = true
    · simp [h1, h2]
    · simp [h1, h2]
  · simp [h1]

theorem pairLe_total (x y : List Nat × List Nat) :
    pairLe x y = true ∨ pairLe y x = true := by
  rcases natListLe_total x.1 y.1 with h1 | h1
  · by_cases h2 : natListLe y.1 x.1 = true
    · rcases natListLe_total x.2 y.2 with h3 | h3
      · exact Or.inl ((pairLe_eq_true_iff x y).mpr ⟨h1, fun _ => h3⟩)
      · exact Or.inr ((pairLe_eq_true_iff y x).mpr ⟨h2, fun _ => h3⟩)
    · exact Or.inl ((pairLe_eq_true_iff x y).mpr ⟨h1, fun h => absurd h h2⟩)
  · by_cases h2 : natListLe x.1 y.1 = true
    · rcases natListLe_total x.2 y.2 with h3 | h3
      · exact Or.inl ((pairLe_eq_true_iff x y).mpr ⟨h2, fun _ => h3⟩)
      · exact Or.inr ((pairLe_eq_true_iff y x).mpr ⟨h1, fun _ => h3⟩)
    · exact Or.inr ((pairLe_eq_true_iff y x).mpr ⟨h1, fun h => absurd h h2⟩)

theorem pairLe_trans (x y z : List Nat × List Nat)
    (hxy : pairLe x y = true) (hyz : pairLe y z = true) : pairLe x z = true := by
  rcases (pairLe_eq_true_iff x y).mp hxy with ⟨h1, h2⟩
  rcases (pairLe_eq_true_iff y z).mp hyz with ⟨h3, h4⟩
  refine (pairLe_eq_true_iff x z).mpr ⟨natListLe_trans _ _ _ h1 h3, fun hzx => ?_⟩
  have hzy : natListLe z.1 y.1 = true := natListLe_trans _ _ _ hzx h1
  have hyx : natListLe y.1 x.1 = true := natListLe_trans _ _ _ h3 hzx
  exact natListLe_trans _ _ _ (h2 hyx) (h4 hzy)

theorem length_insertBy (le : α → α → Bool) (a : α) (l : List α) :
    (insertBy le a l).length = l.length + 1 := by
  induction l with
  | nil => rfl
  | cons b bs ih =>
    simp only [insertBy]
    split
    · simp
    · simp [ih]

theorem length_sortBy (le : α → α → Bool) (l : List α) :
    (sortBy le l).length = l.length := by
  induction l with
  | nil => rfl
  | cons a as ih => simp [sortBy, length_insertBy, ih]

theorem mem_insertBy (le : α → α → Bool) (a b : α) (l : List α) :
    b ∈ insertBy le a l ↔ b = a ∨ b ∈ l := by
  induction l with
  | nil => simp [insertBy]
  | cons c cs ih =>
    simp only [insertBy]
    split
    · simp [List.mem_cons]
    · simp only [List.mem_cons, ih]
      tauto

theorem pairwise_insertBy (le : α → α → Bool)
    (total : ∀ a b : α, le a b = true ∨ le b a = true)
    (tr : ∀ a b c : α, le a b = true → le b c = true → le a c = true)
    (a : α) (l : List α) (h : l.Pairwise (fun x y => le x y = true)) :
    (insertBy le a l).Pairwise (fun x y => le x y = true) := by
  induction l with
  | nil => simp [insertBy]
  | cons c cs ih =>
    rcases List.pairwise_cons.mp h with ⟨hc, hcs⟩
    simp only [insertBy]
    split
    next hac =>
      refine List.pairwise_cons.mpr ⟨?_, h⟩
      intro b hb
      rcases List.mem_cons.mp hb with rfl | hb
      · exact hac
      · exact tr _ _ _ hac (hc b hb)
    next hac =>
      have hca : le c a = true := by
        rcases total a c with h' | h'
        · exact absurd h' (by simpa using hac)
        · exact h'
      refine List.pairwise_cons.mpr ⟨?_, ih hcs⟩
      intro b hb
      rcases (mem_insertBy le a b cs).mp hb with rfl | hb
      · exact hca
      · exact hc b hb

theorem pairwise_sortBy (le : α → α → Bool)
    (total : ∀ a b : α, le a b = true ∨ le b a = true)
    (tr : ∀ a b c : α, le a b = true → le b c = true → le a c = true)
    (l : List α) : (sortBy le l).Pairwise (fun x y => le x y = true) := by
  induction l with
  | nil => simp [sortBy]
  | cons a as ih => exact pairwise_insertBy le total tr a (sortBy le as) ih

theorem length_filterMap_eq_countP (f : α → Option β) (l : List α) :
    (l.filterMap f).length = l.countP (fun a => (f a).isSome) := by
  induction l with
  | nil => rfl
  | cons a as ih =>
    cases h : f a <;>
      simp [List.filterMap_cons, h, List.countP_cons, ih]

/-! Helper lemmas about the repository operations. -/

theorem folderUpdateFields_isEmpty (n i c : Option String) (now : Nat) :
    (DatabaseManager.folderUpdateFields n i c now).isEmpty = false := by
  cases n <;> cases i <;> cases c <;> rfl

theorem passwordUpdateFields_isEmpty (key : Nat) (t u p url no : Option String)
    (fid : Option Nat) (n1 n2 n3 n4 n5 now : Nat) :
    (DatabaseManager.passwordUpdateFields key t u p url no fid n1 n2 n3 n4 n5 now).isEmpty
      = false := by
  cases t <;> cases u <;> cases p <;> cases url <;> cases no <;> cases fid <;> rfl

theorem applyFolderField_id (f : Folder) (x : DatabaseManager.FolderField) :
    (DatabaseManager.applyFolderField f x).id = f.id := by
  cases x <;> rfl

theorem foldl_applyFolderField_id (fields : List DatabaseManager.FolderField) (f : Folder) :
    (fields.foldl DatabaseManager.applyFolderField f).id = f.id := by
  induction fields generalizing f with
  | nil => rfl
  | cons x xs ih => rw [List.foldl_cons, ih, applyFolderField_id]

theorem folder1Present_applyOp (key : Nat) (op : Op) (db : Database)
    (h : folder1Present db = true) : folder1Present (applyOp key db op) = true := by
  obtain ⟨f0, hmem, hid⟩ := List.any_eq_true.mp h
  cases op with
  | createFolder n i c now =>
    cases hf : db.folders with
    | none => simpa [applyOp, DatabaseManager.create_folder, hf] using h
    | some fs =>
      rw [hf] at hmem
      simp only [applyOp, DatabaseManager.create_folder, hf, Option.getD_some] at hmem ⊢
      simp only [folder1Present, Option.getD_some]
      exact List.any_eq_true.mpr ⟨f0, List.mem_append_left _ hmem, hid⟩
  | updateFolder fid n i c now =>
    cases hf : db.folders with
    | none => simpa [applyOp, DatabaseManager.update_folder, hf] using h
    | some fs =>
      have hmem' : f0 ∈ fs := by rw [hf] at hmem; simpa using hmem
      have hid' : f0.id = 1 := by simpa using hid
      simp [applyOp, DatabaseManager.update_folder, hf, folderUpdateFields_isEmpty,
        folder1Present, List.any_eq_true]
      refine ⟨f0, hmem', ?_⟩
      split
      · rw [foldl_applyFolderField_id]; exact hid'
      · exact hid'
  | deleteFolder fid mv =>
    simp only [applyOp, DatabaseManager.delete_folder, Bool.not_true, Bool.false_or]
    by_cases hb : (fid == 1) = true
    · simpa [hb, folder1Present] using h
    · have hb' : (fid == 1) = false := by simpa using hb
      simp only [hb', if_false]
      cases hp : db.passwords with
      | none => simpa [folder1Present] using h
      | some ps =>
        cases hf : db.folders with
        | none => simpa [folder1Present] using h
        | some fs =>
          rw [hf] at hmem
          simp only [folder1Present, Option.getD_some]
          refine List.any_eq_true.mpr ⟨f0, List.mem_filter.mpr ⟨hmem, ?_⟩, hid⟩
          have h1 : f0.id = 1 := by simpa using hid
          have h2 : fid ≠ 1 := by simpa using hb'
          simp [h1]
          omega
  | addPassword t u p fid url no n1 n2 n3 n4 n5 now =>
    cases hp : db.passwords with
    | none => simpa [applyOp, DatabaseManager.add_password, hp] using h
    | some ps => simpa [applyOp, DatabaseManager.add_password, hp, folder1Present] using h
  | updatePassword e t u p url no fid n1 n2 n3 n4 n5 now =>
    cases hp : db.passwords with
    | none => simpa [applyOp, DatabaseManager.update_password, hp] using h
    | some ps =>
      simpa [applyOp, DatabaseManager.update_password, hp, passwordUpdateFields_isEmpty,
        folder1Present] using h
  | deletePassword e =>
    cases hp : db.passwords with
    | none => simpa [applyOp, DatabaseManager.delete_password, hp] using h
    | some ps => simpa [applyOp, DatabaseManager.delete_password, hp, folder1Present] using h
  | ensureSchema now =>
    simp only [applyOp, DatabaseManager.create_tables]
    split
    · exact h
    · simp only [folder1Present, Option.getD_some]
      split
      · exact List.any_eq_true.mpr ⟨f0, List.mem_append_left _ hmem, hid⟩
      · exact List.any_eq_true.mpr ⟨f0, hmem, hid⟩

theorem folder1Present_applyOps (key : Nat) (ops : List Op) : ∀ db : Database,
    folder1Present db = true → folder1Present (applyOps key db ops) = true := by
  induction ops with
  | nil => intro db h; exact h
  | cons op rest ih =>
    intro db h
    exact ih (applyOp key db op) (folder1Present_applyOp key op db h)

theorem saltOf_applyOp (key : Nat) (op : Op) (db : Database) :
    saltOf (applyOp key db op) = saltOf db := by
  cases op <;>
    simp only [applyOp, DatabaseManager.create_folder, DatabaseManager.update_folder,
      DatabaseManager.delete_folder, DatabaseManager.add_password,
      DatabaseManager.update_password, DatabaseManager.delete_password,
      DatabaseManager.create_tables] <;>
    (repeat' split) <;>
    simp [saltOf]

theorem saltOf_applyOps (key : Nat) (ops : List Op) : ∀ db : Database,
    saltOf (applyOps key db ops) = saltOf db := by
  induction ops with
  | nil => intro db; rfl
  | cons op rest ih =>
    intro db
    rw [applyOps, List.foldl_cons]
    rw [show List.foldl (applyOp key) (applyOp key db op) rest =
      applyOps key (applyOp key db op) rest from rfl]
    rw [ih (applyOp key db op), saltOf_applyOp]

/-! The claims. -/

/-- C1: for every string s, decrypting the encryption of s under the same
key returns s; the empty string short-circuits on both sides: encrypting
it yields the stored empty string, and decrypting the stored empty
string yields the empty string. -/
theorem encrypt_decrypt_roundtrip (key nonce : Nat) (s : String) :
    DatabaseManager.decrypt_data key (DatabaseManager.encrypt_data key nonce s) = s ∧
    DatabaseManager.encrypt_data key nonce "" = CipherText.empty ∧
    DatabaseManager.decrypt_data key CipherText.empty = "" := by
  refine ⟨?_, rfl, rfl⟩
  unfold DatabaseManager.encrypt_data DatabaseManager.decrypt_data
  by_cases h : s = ""
  · simp [h]
  · simp [h]

/-- C5: decrypting a ciphertext that the cipher produced under one key
with a cipher bound to a different key returns the empty failure marker
and never the original plaintext, and corrupted ciphertext likewise
decrypts to the empty marker; decrypt_data is total, so no exception
crosses the boundary.  (The hypothesis s ≠ "" restricts to ciphertexts
the cipher actually produced: the empty string bypasses the cipher by
the short-circuit of C1.) -/
theorem decrypt_wrong_key_fails (k1 k2 nonce : Nat) (s : String)
    (hk : k1 ≠ k2) (hs : s ≠ "") :
    DatabaseManager.decrypt_data k2 (DatabaseManager.encrypt_data k1 nonce s) = "" ∧
    DatabaseManager.decrypt_data k2 (DatabaseManager.encrypt_data k1 nonce s) ≠ s ∧
    ∀ j : Nat, DatabaseManager.decrypt_data k2 (CipherText.corrupt j) = "" := by
  have hd : DatabaseManager.decrypt_data k2 (DatabaseManager.encrypt_data k1 nonce s) = "" := by
    unfold DatabaseManager.encrypt_data DatabaseManager.decrypt_data
    simp [hs, hk]
  refine ⟨hd, ?_, fun j => rfl⟩
  rw [hd]
  exact fun hh => hs hh.symm

/-- C5 witness at key pair (0, 1) and plaintext 'x'. -/
theorem decrypt_wrong_key_fails_witness :
    DatabaseManager.decrypt_data 1 (DatabaseManager.encrypt_data 0 0 "x") = "" :=
  (decrypt_wrong_key_fails 0 1 0 "x" (by decide) (by decide)).1

/-- C2: on a connected session, delete_folder on folder 1 returns failure
with the store unchanged, whatever the move-to argument; and after any
sequence of repository operations on a freshly created database a folder
row with id 1 is still present. -/
theorem default_folder_never_deleted (db : Database) (g : Nat)
    (key salt pw now : Nat) (ops : List Op) :
    DatabaseManager.delete_folder true db 1 g = (false, db) ∧
    folder1Present (applyOps key
      (DatabaseManager.create_sqlite_database emptyDatabase salt pw now).2 ops) = true := by
  constructor
  · rfl
  · exact folder1Present_applyOps key ops _ rfl

/-- C3: a successful delete_folder on a folder F other than the default
one leaves no folder row with id F, keeps the total entry count
unchanged, and every entry that was in F is still present (same id) with
folder_id now equal to the move-to folder G. -/
theorem delete_folder_moves_entries (db : Database) (F G : Nat) (hF : F ≠ 1)
    (ps : List PasswordRow) (fs : List Folder)
    (hp : db.passwords = some ps) (hf : db.folders = some fs) :
    (DatabaseManager.delete_folder true db F G).1 = true ∧
    ((DatabaseManager.delete_folder true db F G).2.folders.getD []).countP
      (fun f => f.id == F) = 0 ∧
    ((DatabaseManager.delete_folder true db F G).2.passwords.getD []).length
      = ps.length ∧
    ∀ p ∈ ps, p.folder_id = F →
      ((DatabaseManager.delete_folder true db F G).2.passwords.getD []).any
        (fun q => q.id == p.id && q.folder_id == G) = true := by
  have hb : (F == 1) = false := by simp [hF]
  have hd : DatabaseManager.delete_folder true db F G =
      (true, { db with
        passwords := some (ps.map (fun p =>
          if p.folder_id == F then { p with folder_id := G } else p)),
        folders := some (fs.filter (fun f => !(f.id == F))) }) := by
    unfold DatabaseManager.delete_folder
    rw [hp, hf]
    simp [hb]
  rw [hd]
  refine ⟨rfl, ?_, by simp, ?_⟩
  · refine List.countP_eq_zero.mpr ?_
    intro f hfmem
    have := (List.mem_filter.mp hfmem).2
    simpa using this
  · intro p hpmem hpf
    refine List.any_eq_true.mpr ⟨{ p with folder_id := G }, ?_, by simp⟩
    refine List.mem_map.mpr ⟨p, hpmem, ?_⟩
    simp [hpf]

/-- C3 witness: deleting folder 2 of exDb3 succeeds. -/
theorem delete_folder_moves_entries_witness :
    (DatabaseManager.delete_folder true exDb3 2 1).1 = true :=
  (delete_folder_moves_entries exDb3 2 1 (by decide) [exRow1] [exFolder1, exFolder2]
    rfl rfl).1

/-- C4: the table-creation routine is idempotent: when the passwords
table exists and holds data it leaves the store untouched; a second run
reproduces the result of the first exactly (so the default folder is
never inserted twice); and the password rows survive a run unchanged. -/
theorem create_tables_idempotent (db : Database) (now now2 : Nat) :
    (DatabaseManager.check_existing_data db = true →
      DatabaseManager.create_tables now db = db) ∧
    DatabaseManager.create_tables now2 (DatabaseManager.create_tables now db) =
      DatabaseManager.create_tables now db ∧
    (DatabaseManager.create_tables now db).passwords.getD [] = db.passwords.getD [] ∧
    ((DatabaseManager.create_tables now2
        (DatabaseManager.create_tables now db)).folders.getD []).countP
        (fun f => f.id == 1) =
      ((DatabaseManager.create_tables now db).folders.getD []).countP
        (fun f => f.id == 1) := by
  have hskip : ∀ (m : Nat) (d : Database), DatabaseManager.check_existing_data d = true →
      DatabaseManager.create_tables m d = d := by
    intro m d h
    unfold DatabaseManager.create_tables
    simp [h]
  have hpass : ∀ (m : Nat) (d : Database),
      (DatabaseManager.create_tables m d).passwords.getD [] = d.passwords.getD [] := by
    intro m d
    unfold DatabaseManager.create_tables
    split
    · rfl
    · split <;> rfl
  have hgetnil : ∀ d : Database, DatabaseManager.check_existing_data d = false →
      d.passwords.getD [] = [] := by
    intro d h
    unfold DatabaseManager.check_existing_data at h
    cases hp : d.passwords with
    | none => simp
    | some rows =>
      rw [hp] at h
      have : rows = [] := by simpa [List.isEmpty_iff] using h
      simp [this]
  have hid : ∀ (m2 m : Nat) (d : Database),
      DatabaseManager.create_tables m2 (DatabaseManager.create_tables m d) =
        DatabaseManager.create_tables m d := by
    intro m2 m d
    by_cases hc : DatabaseManager.check_existing_data d = true
    · rw [hskip m d hc, hskip m2 d hc]
    · have hc' : DatabaseManager.check_existing_data d = false := by
        simpa using hc
      have hnil : d.passwords.getD [] = [] := hgetnil d hc'
      by_cases hcnt : (d.folders.getD []).countP (fun f => f.id == 1) = 0
      · have e1 : DatabaseManager.create_tables m d =
            (⟨some (d.metadata.getD []),
              some (d.folders.getD [] ++ [DatabaseManager.defaultFolder m]),
              some (d.passwords.getD []), max d.folderSeq 1, d.passwordSeq⟩ : Database) := by
          unfold DatabaseManager.create_tables
          rw [if_neg hc, if_pos hcnt]
        have hne2 : ¬ DatabaseManager.check_existing_data
            (⟨some (d.metadata.getD []),
              some (d.folders.getD [] ++ [DatabaseManager.defaultFolder m]),
              some (d.passwords.getD []), max d.folderSeq 1, d.passwordSeq⟩ : Database)
              = true := by
          simp [DatabaseManager.check_existing_data, hnil]
        have hcnt2 : ¬ ((⟨some (d.metadata.getD []),
              some (d.folders.getD [] ++ [DatabaseManager.defaultFolder m]),
              some (d.passwords.getD []), max d.folderSeq 1, d.passwordSeq⟩ :
                Database).folders.getD []).countP (fun f => f.id == 1) = 0 := by
          simp [List.countP_append, DatabaseManager.defaultFolder, List.countP_cons]
        rw [e1]
        unfold DatabaseManager.create_tables
        rw [if_neg hne2, if_neg hcnt2]
        rfl
      · have e1 : DatabaseManager.create_tables m d =
            (⟨some (d.metadata.getD []), some (d.folders.getD []),
              some (d.passwords.getD []), d.folderSeq, d.passwordSeq⟩ : Database) := by
          unfold DatabaseManager.create_tables
          rw [if_neg hc, if_neg hcnt]
        have hne2 : ¬ DatabaseManager.check_existing_data
            (⟨some (d.metadata.getD []), some (d.folders.getD []),
              some (d.passwords.getD []), d.folderSeq, d.passwordSeq⟩ : Database)
              = true := by
          simp [DatabaseManager.check_existing_data, hnil]
        have hcnt2 : ¬ ((⟨some (d.metadata.getD []), some (d.folders.getD []),
              some (d.passwords.getD []), d.folderSeq, d.passwordSeq⟩ :
                Database).folders.getD []).countP (fun f => f.id == 1) = 0 := by
          simpa using hcnt
        rw [e1]
        unfold DatabaseManager.create_tables
        rw [if_neg hne2, if_neg hcnt2]
        rfl
  exact ⟨hskip now db, hid now2 now db, hpass now db, by rw [hid now2 now db]⟩

/-- C4 witness: on exDb3, whose passwords table holds a row, the routine
is the identity. -/
theorem create_tables_idempotent_witness :
    DatabaseManager.create_tables 0 exDb3 = exDb3 :=
  (create_tables_idempotent exDb3 0 0).1 (by decide)

/-- C10: update_folder and update_password called with every optional
field argument left unsupplied still succeed: the update_fields list
always holds the updated_at assignment, so the no-fields failure branch
is unreachable, and the resulting store differs only in the updated_at
column of the addressed row. -/
theorem update_noop_touches_only_updated_at (db : Database) (fid pid key : Nat)
    (now n1 n2 n3 n4 n5 : Nat) (fs : List Folder) (ps : List PasswordRow)
    (hf : db.folders = some fs) (hp : db.passwords = some ps) :
    DatabaseManager.update_folder true db fid none none none now =
      (true, { db with folders := some (fs.map (fun f =>
        if f.id == fid then { f with updated_at := now } else f)) }) ∧
    DatabaseManager.update_password true key db pid none none none none none none
        n1 n2 n3 n4 n5 now =
      (true, { db with passwords := some (ps.map (fun p =>
        if p.id == pid then { p with updated_at := now } else p)) }) := by
  constructor
  · unfold DatabaseManager.update_folder
    rw [hf]
    rfl
  · unfold DatabaseManager.update_password
    rw [hp]
    rfl

/-- C10 witness: the all-defaults update of folder 2 of exDb3 at time 5. -/
theorem update_noop_witness :
    DatabaseManager.update_folder true exDb3 2 none none none 5 =
      (true, { exDb3 with folders := some ([exFolder1, exFolder2].map (fun f =>
        if f.id == 2 then { f with updated_at := 5 } else f)) }) :=
  (update_noop_touches_only_updated_at exDb3 2 1 9 5 0 0 0 0 0
    [exFolder1, exFolder2] [exRow1] rfl rfl).1

/-- C6 counterexample: a vault whose only record does not decrypt under
the supplied password makes load_database_settings return the empty
list (the shape of an empty vault), not a failure signal; with one
decryptable and one undecryptable record it silently returns only the
decryptable one. -/
theorem load_settings_wrong_password_counterexample :
    SettingsManager.load_database_settings [exVaultRow] 2 = some [] ∧
    SettingsManager.load_database_settings [exVaultGood, exVaultRow] 2 =
      some ["cfg-home"] ∧
    some ([] : List String) ≠ (none : Option (List String)) := by
  refine ⟨by decide, by decide, by simp⟩

/-- C6 amended: load_database_settings never reports whole-call failure
on decryption errors: records that fail to decrypt are silently skipped
and the remaining configs returned, so the result length equals the
number of decryptable records; the None failure signal arises only from
storage-level exceptions, outside this state model. -/
theorem load_settings_skips_undecryptable (rows : List SettingsManager.SettingsRow)
    (pw : Nat) (l : List String)
    (h : SettingsManager.load_database_settings rows pw = some l) :
    SettingsManager.load_database_settings rows pw ≠ none ∧
    l.length = rows.countP
      (fun r => (SettingsManager._decrypt_data pw r.config_encrypted).isSome) := by
  constructor
  · rw [h]; simp
  · have hl : l = rows.filterMap
        (fun r => SettingsManager._decrypt_data pw r.config_encrypted) := by
      have h' := h
      unfold SettingsManager.load_database_settings at h'
      exact (Option.some.inj h').symm
    rw [hl]
    exact length_filterMap_eq_countP _ _

/-- C6 amended witness: the all-undecryptable vault loads as the empty
list, whose length is the count of decryptable records (zero). -/
theorem load_settings_skips_undecryptable_witness :
    ([] : List String).length = List.countP
      (fun r => (SettingsManager._decrypt_data 2 r.config_encrypted).isSome)
      [exVaultRow] :=
  (load_settings_skips_undecryptable [exVaultRow] 2 [] (by decide)).2

/-- C7 counterexample: in the folder-filtered listing of exDb7 the
decrypted titles come back as zebra before apple, because ORDER BY is
applied to the stored title ciphertext whose random nonce dominates the
comparison; the output is not ordered by decrypted plaintext title. -/
theorem get_passwords_cipher_order_counterexample :
    (DatabaseManager.get_passwords true 9 exDb7 (some 1)).map
        (fun e => e.title) = ["zebra", "apple"] ∧
    ¬ ((DatabaseManager.get_passwords true 9 exDb7 (some 1)).map
        (fun e => e.title)).Pairwise
      (fun a b => natListLe (strBytes a) (strBytes b) = true) := by
  have hm : (DatabaseManager.get_passwords true 9 exDb7 (some 1)).map
      (fun e => e.title) = ["zebra", "apple"] := by decide
  refine ⟨hm, ?_⟩
  rw [hm]
  intro hpair
  have h1 := (List.pairwise_cons.mp hpair).1 "apple" (by decide)
  exact absurd h1 (by decide)

/-- C7 amended: the unfiltered listing is sorted by the joined plaintext
folder name (SQL NULLs first) and loses no row; the title component of
the ordering, and the whole order of the filtered listing, follow the
stored title ciphertext text, which does not track the plaintext
titles. -/
theorem get_passwords_sorted_by_folder_name (key : Nat) (db : Database)
    (ps : List PasswordRow) (fs : List Folder)
    (hp : db.passwords = some ps) (hf : db.folders = some fs) :
    ((DatabaseManager.get_passwords true key db none).map
        (fun e => e.folder_name)).Pairwise
      (fun a b => natListLe (folderNameKey a) (folderNameKey b) = true) ∧
    (DatabaseManager.get_passwords true key db none).length = ps.length := by
  have hg : DatabaseManager.get_passwords true key db none =
      (sortBy (rowLeUnfiltered fs) ps).map (decryptRow key fs) := by
    unfold DatabaseManager.get_passwords
    rw [hp, hf]
    rfl
  constructor
  · rw [hg, List.map_map, List.pairwise_map]
    have hsorted := pairwise_sortBy (rowLeUnfiltered fs)
      (fun a b => pairLe_total _ _) (fun a b c => pairLe_trans _ _ _) ps
    exact hsorted.imp (fun hab => ((pairLe_eq_true_iff _ _).mp hab).1)
  · rw [hg]
    simp [length_sortBy]

/-- C7 amended witness: the unfiltered listing of exDb7 keeps both
rows. -/
theorem get_passwords_sorted_witness :
    (DatabaseManager.get_passwords true 9 exDb7 none).length = 2 :=
  (get_passwords_sorted_by_folder_name 9 exDb7 [exRowA, exRowZ] [exFolder1]
    rfl rfl).2

/-- C8 counterexample: calling create_sqlite_database on the already
existing, fully initialized database exDb8 draws a fresh salt and
INSERT OR REPLACEs it over the stored one: the stored salt changes from
0 to 1, so a create operation invoked after the database first exists
does replace the salt. -/
theorem create_overwrites_salt_counterexample :
    saltOf exDb8 = some 0 ∧
    folder1Present exDb8 = true ∧
    saltOf (DatabaseManager.create_sqlite_database exDb8 1 7 0).2 = some 1 ∧
    saltOf (DatabaseManager.create_sqlite_database exDb8 1 7 0).2 ≠ saltOf exDb8 := by
  refine ⟨rfl, rfl, by decide, by decide⟩

/-- C8 amended: within a session on an existing database the salt is
immutable: no repository operation changes the stored salt, and
connect_sqlite_database writes nothing and derives the session key from
the salt it finds stored; only create_sqlite_database on an existing
database overwrites the salt (the counterexample). -/
theorem salt_immutable_in_session (db : Database) (key pw : Nat)
    (ops : List Op) (sess : Session)
    (h : (DatabaseManager.connect_sqlite_database db pw).1 = some sess) :
    saltOf (applyOps key db ops) = saltOf db ∧
    (DatabaseManager.connect_sqlite_database db pw).2 = db ∧
    ∃ s, saltOf db = some s ∧ sess.key = DatabaseManager.derive_key s pw ∧
      sess.salt = s := by
  refine ⟨saltOf_applyOps key ops db, ?_, ?_⟩
  · unfold DatabaseManager.connect_sqlite_database
    repeat' split
    all_goals rfl
  · unfold DatabaseManager.connect_sqlite_database at h
    split at h
    · exact absurd h (by simp)
    · split at h
      · exact absurd h (by simp)
      · split at h
        · exact absurd h (by simp)
        · rename_i mdo md hmd so salt hsl fo fs hfo
          have h' : (⟨true, DatabaseManager.derive_key salt pw, salt⟩ : Session)
              = sess := Option.some.inj h
          subst h'
          refine ⟨salt, by simp [saltOf, hmd, hsl], rfl, rfl⟩

/-- C8 amended witness: creating a folder on exDb8 leaves the stored
salt unchanged. -/
theorem salt_immutable_witness :
    saltOf (applyOps 9 exDb8 [Op.createFolder "Work" none "#3498db" 5]) =
      saltOf exDb8 :=
  (salt_immutable_in_session exDb8 9 7 [Op.createFolder "Work" none "#3498db" 5]
    exSess8 (by decide)).1

/-- C9 counterexample: on the networked backend, execute dispatches a
template that still carries the file engine's placeholder unchanged;
the rewriting the spec describes would have produced a different query
text, so execute performs no placeholder rewriting. -/
theorem execute_no_rewrite_counterexample :
    DatabaseManager.execute true DbType.postgresql exQuery9 [] =
      Except.ok ⟨exQuery9, []⟩ ∧
    specRewritePlaceholders DbType.postgresql exQuery9 ≠ exQuery9 := by
  constructor
  · rfl
  · decide

/-- C9 amended: execute raises when the session is not connected and
otherwise hands the query text and parameters to the selected backend
branch verbatim; placeholder syntax is chosen by the repository at each
call site, not rewritten inside execute. -/
theorem execute_dispatches_verbatim (ty : DbType) (q : String) (ps : List String) :
    DatabaseManager.execute true ty q ps = Except.ok ⟨q, ps⟩ ∧
    DatabaseManager.execute false ty q ps = Except.error "Database not connected" := by
  cases ty <;> exact ⟨rfl, rfl⟩

end Prasword
